import Mathlib

/-!
Verification of the kiwi-rs value-encoding and liveness-management layer
(src/storage): record layouts (scalar string, bare data, container metadata,
list metadata), their encode/parse pairs, in-place mutation of parsed
records, version bookkeeping, and the compaction filter.

Buffers are modelled as `List Nat` of byte values; all multi-byte integers
are little-endian.  Machine-integer arithmetic that can overflow in the
source (u64 addition/subtraction, usize subtraction) is modelled explicitly
modulo 2^64; a Rust panic/abort (out-of-bounds slice, todo! placeholder) is
modelled by a dedicated outcome constructor, never by a default value.
-/

namespace Kiwi

/-! ## Fixed-width layout constants

Modelled from the spec (storage_define.rs is not part of the provided
sources): spec section 6 fixes reserve = 16, timestamp = 8, version = 8,
type tag = 1, container count = 4, list index = 8.  The composite suffix
constants are the sums of the trailing fixed-width fields of each layout
(excluding the leading type byte and the variable payload), which is the
only assignment under which each parser's field offsets agree with the
corresponding encoder (spec sections 4.2 to 4.5 and the round-trip
property of section 8). -/

def TYPE_LENGTH : Nat := 1

def TIMESTAMP_LENGTH : Nat := 8

def VERSION_LENGTH : Nat := 8

def SUFFIX_RESERVE_LENGTH : Nat := 16

def BASE_META_VALUE_COUNT_LENGTH : Nat := 4

def LIST_VALUE_INDEX_LENGTH : Nat := 8

/-- Modelled from the spec: reserve(16) + ctime(8) + etime(8) = 32. -/
def STRING_VALUE_SUFFIXLENGTH : Nat :=
  SUFFIX_RESERVE_LENGTH + 2 * TIMESTAMP_LENGTH

/-- Modelled from the spec: version(8) + reserve(16) + ctime(8) + etime(8) = 40. -/
def BASE_META_VALUE_SUFFIX_LENGTH : Nat :=
  VERSION_LENGTH + SUFFIX_RESERVE_LENGTH + 2 * TIMESTAMP_LENGTH

/-- Modelled from the spec: reserve(16) + ctime(8) = 24. -/
def BASE_DATA_VALUE_SUFFIX_LENGTH : Nat :=
  SUFFIX_RESERVE_LENGTH + TIMESTAMP_LENGTH

/-- Modelled from the spec: count(4) + version(8) + two indices(16) +
reserve(16) + ctime(8) + etime(8) = 60. -/
def LISTS_META_VALUE_SUFFIX_LENGTH : Nat :=
  BASE_META_VALUE_COUNT_LENGTH + VERSION_LENGTH + 2 * LIST_VALUE_INDEX_LENGTH
    + SUFFIX_RESERVE_LENGTH + 2 * TIMESTAMP_LENGTH

/-! ## Byte-level helpers -/

/-- Little-endian decoding of a byte list (u32/u64::from_le_bytes). -/
def leToNat : List Nat → Nat
  | [] => 0
  | b :: bs => b + 256 * leToNat bs

/-- Little-endian encoding of `n` into `width` bytes (to_le_bytes /
put_u32_le / put_u64_le); values are reduced modulo 2^(8*width) exactly as
the machine integer would be. -/
def natToLe (width n : Nat) : List Nat :=
  match width with
  | 0 => []
  | w + 1 => n % 256 :: natToLe w (n / 256)

/-- Bytes `start .. start+len` of a buffer (an in-bounds Rust slice read). -/
def readBytes (v : List Nat) (start len : Nat) : List Nat :=
  (v.drop start).take len

/-- Little-endian integer read from a fixed-width slice of a buffer. -/
def readLe (v : List Nat) (start len : Nat) : Nat :=
  leToNat (readBytes v start len)

/-- In-place splice of `bs` into `v` at `start` (copy_from_slice on a
previously validated buffer; never resizes). -/
def writeBytes (v : List Nat) (start : Nat) (bs : List Nat) : List Nat :=
  v.take start ++ bs ++ v.drop (start + bs.length)

/-- Wrapping 64-bit subtraction (Rust release-mode `u64`/`usize` `-`). -/
def wsub64 (a b : Nat) : Nat :=
  (a + 2 ^ 64 - b % 2 ^ 64) % 2 ^ 64

/-- Reinterpretation of a stored unsigned 32-bit value as `i32`
(`u32::from_le_bytes(..) as i32`). -/
def signed32 (u : Nat) : Int :=
  if u < 2 ^ 31 then (u : Int) else (u : Int) - 2 ^ 32

/-- Saturating `i32` addition (`i32::saturating_add`). -/
def satAddI32 (a b : Int) : Int :=
  max (-(2 ^ 31)) (min (2 ^ 31 - 1) (a + b))

/-- Little-endian bytes of an `i32` (`i32::to_le_bytes`), via its two's
complement unsigned representation. -/
def i32ToLe (c : Int) : List Nat :=
  natToLe 4 (c % 2 ^ 32).toNat

/-! ## DataType

Modelled from the spec (base_value_format.rs is not part of the provided
sources): a closed one-byte enumeration with members None, String, Hash,
Set, ZSet, List that round-trips through its byte representation exactly;
parsing an out-of-range byte fails (spec section 3).  The concrete byte
values are not fixed by the spec; they are chosen here in declaration
order, and no claim depends on the particular numbering. -/

inductive DataType where
  | none
  | string
  | hash
  | set
  | zset
  | list
deriving DecidableEq

/-- Byte representation of a type tag (`data_type as u8`). -/
def DataType.toByte : DataType → Nat
  | DataType.none => 0
  | DataType.string => 1
  | DataType.hash => 2
  | DataType.set => 3
  | DataType.zset => 4
  | DataType.list => 5

/-- Inverse byte decoding (`DataType::try_from(u8)`); out-of-range bytes
are rejected. -/
def DataType.tryFrom (b : Nat) : Option DataType :=
  if b = 0 then Option.some DataType.none
  else if b = 1 then Option.some DataType.string
  else if b = 2 then Option.some DataType.hash
  else if b = 3 then Option.some DataType.set
  else if b = 4 then Option.some DataType.zset
  else if b = 5 then Option.some DataType.list
  else Option.none

/-! ## Parse outcomes

All parse-side constructors in the source return `Result<_, StorageError>`
where the only relevant kind is InvalidFormat.  A Rust panic (slice read
out of bounds, integer-underflow abort in a debug build, or an explicit
`todo!()`) is a third outcome distinct from an error return. -/

inductive ParseResult (α : Type) where
  | ok (value : α)
  | invalidFormat (msg : String)
  | aborted
deriving DecidableEq

/-! ## Internal value envelope (encode side)

Modelled from the spec for the parts of base_value_format.rs not provided:
`InternalValue::new(data_type, user_value)` sets version 0, etime 0, a
zero-filled 16-byte reserve region (spec sections 3 and 4.1); ctime is
left to the caller, modelled 0 at construction. -/

structure InternalValue where
  data_type : DataType
  user_value : List Nat
  reserve : List Nat
  version : Nat
  ctime : Nat
  etime : Nat
deriving DecidableEq

def InternalValue.new (dt : DataType) (uv : List Nat) : InternalValue :=
  { data_type := dt
    user_value := uv
    reserve := List.replicate SUFFIX_RESERVE_LENGTH 0
    version := 0
    ctime := 0
    etime := 0 }

/-! ## Scalar string record (strings_value_format.rs) -/

structure StringValue where
  inner : InternalValue
deriving DecidableEq

def StringValue.new (uv : List Nat) : StringValue :=
  { inner := InternalValue.new DataType.string uv }

/-- StringValue::encode — `type(1) | value | reserve(16) | ctime(8) |
etime(8)`; writes the String tag and a zeroed reserve unconditionally. -/
def StringValue.encode (v : StringValue) : List Nat :=
  [DataType.string.toByte] ++ v.inner.user_value
    ++ List.replicate SUFFIX_RESERVE_LENGTH 0
    ++ natToLe 8 v.inner.ctime ++ natToLe 8 v.inner.etime

/-! ## Bare data record (base_data_value_format.rs) -/

structure BaseDataValue where
  inner : InternalValue
deriving DecidableEq

def BaseDataValue.new (uv : List Nat) : BaseDataValue :=
  { inner := InternalValue.new DataType.none uv }

/-- BaseDataValue::encode — `value | reserve(16) | ctime(8)`; no type
byte, no etime. -/
def BaseDataValue.encode (v : BaseDataValue) : List Nat :=
  v.inner.user_value ++ v.inner.reserve ++ natToLe 8 v.inner.ctime

/-! ## Container metadata record, encode side (base_meta_value_format.rs) -/

structure BaseMetaValue where
  inner : InternalValue
deriving DecidableEq

def BaseMetaValue.new (uv : List Nat) : BaseMetaValue :=
  { inner := InternalValue.new DataType.none uv }

/-- BaseMetaValue::update_version — `now` is the sampled wall-clock
microsecond timestamp; the u64 increment wraps modulo 2^64. -/
def BaseMetaValue.update_version (v : BaseMetaValue) (now : Nat) :
    BaseMetaValue × Nat :=
  let nv := if now ≤ v.inner.version then (v.inner.version + 1) % 2 ^ 64 else now
  ({ v with inner := { v.inner with version := nv } }, nv)

/-- BaseMetaValue::encode — `type(1) | user_value | version(8) |
reserve(16) | ctime(8) | etime(8)`. -/
def BaseMetaValue.encode (v : BaseMetaValue) : List Nat :=
  [v.inner.data_type.toByte] ++ v.inner.user_value ++ natToLe 8 v.inner.version
    ++ v.inner.reserve ++ natToLe 8 v.inner.ctime ++ natToLe 8 v.inner.etime

/-! ## List metadata record, encode side (lists_meta_value_format.rs) -/

def INITIAL_LEFT_INDEX : Nat := 9223372036854775807

def INITIAL_RIGHT_INDEX : Nat := 9223372036854775808

structure ListsMetaValue where
  inner : InternalValue
  left_index : Nat
  right_index : Nat
deriving DecidableEq

def ListsMetaValue.new (uv : List Nat) : ListsMetaValue :=
  { inner := InternalValue.new DataType.list uv
    left_index := INITIAL_LEFT_INDEX
    right_index := INITIAL_RIGHT_INDEX }

/-- ListsMetaValue::encode — `type(1) | user_value | version(8) |
left_index(8) | right_index(8) | reserve(16) | ctime(8) | etime(8)`. -/
def ListsMetaValue.encode (v : ListsMetaValue) : List Nat :=
  [v.inner.data_type.toByte] ++ v.inner.user_value ++ natToLe 8 v.inner.version
    ++ natToLe 8 v.left_index ++ natToLe 8 v.right_index
    ++ v.inner.reserve ++ natToLe 8 v.inner.ctime ++ natToLe 8 v.inner.etime

/-- ListsMetaValue::update_version — same formula as the container
metadata record. -/
def ListsMetaValue.update_version (v : ListsMetaValue) (now : Nat) :
    ListsMetaValue × Nat :=
  let nv := if now ≤ v.inner.version then (v.inner.version + 1) % 2 ^ 64 else now
  ({ v with inner := { v.inner with version := nv } }, nv)

/-- ListsMetaValue::modify_left_index — `self.left_index -= index`
(wrapping u64 subtraction). -/
def ListsMetaValue.modify_left_index (v : ListsMetaValue) (index : Nat) :
    ListsMetaValue :=
  { v with left_index := wsub64 v.left_index index }

/-- ListsMetaValue::modify_right_index — `self.right_index += index`
(wrapping u64 addition). -/
def ListsMetaValue.modify_right_index (v : ListsMetaValue) (index : Nat) :
    ListsMetaValue :=
  { v with right_index := (v.right_index + index) % 2 ^ 64 }

/-! ## Parsed internal value (parse side of the envelope)

The constructor signature and fields are those used by every parse-side
call site in the provided sources; ranges are half-open byte index pairs
into the owned buffer. -/

structure ParsedInternalValue where
  value : List Nat
  data_type : DataType
  user_value_range : Nat × Nat
  reserve_range : Nat × Nat
  version : Nat
  ctime : Nat
  etime : Nat
deriving DecidableEq

/-- View of the payload bytes through `user_value_range`. -/
def ParsedInternalValue.user_value (p : ParsedInternalValue) : List Nat :=
  readBytes p.value p.user_value_range.1
    (p.user_value_range.2 - p.user_value_range.1)

/-- View of the reserve bytes through `reserve_range`. -/
def ParsedInternalValue.reserve (p : ParsedInternalValue) : List Nat :=
  readBytes p.value p.reserve_range.1 (p.reserve_range.2 - p.reserve_range.1)

/-- Modelled from the spec: the staleness predicate of the envelope —
a record is stale iff `etime != 0 && etime <= now` (spec section 3);
base_value_format.rs is not part of the provided sources. -/
def ParsedInternalValue.is_stale (p : ParsedInternalValue) (now : Nat) : Bool :=
  decide (p.etime ≠ 0) && decide (p.etime ≤ now)

/-! ## Parsed scalar string record (strings_value_format.rs) -/

structure ParsedStringsValue where
  base : ParsedInternalValue
deriving DecidableEq

/-- ParsedStringsValue::new.  The source guard only rejects
`len < STRING_VALUE_SUFFIXLENGTH` (32); for a surviving length of exactly
32 the usize computation `len - TYPE_LENGTH - STRING_VALUE_SUFFIXLENGTH`
underflows, which in a release build wraps modulo 2^64 (modelled here with
`wsub64`, producing the inverted range 1..0) and in a debug build aborts.
The trailing slice `value[reserve_end..]` is always in bounds for lengths
that reach it, so no abort outcome occurs in this parser under release
semantics. -/
def ParsedStringsValue.new (value : List Nat) : ParseResult ParsedStringsValue :=
  if value.length < STRING_VALUE_SUFFIXLENGTH then
    ParseResult.invalidFormat "invalid string value length"
  else
    match DataType.tryFrom (value.headD 0) with
    | Option.none => ParseResult.invalidFormat "invalid data type byte"
    | Option.some dt =>
      let user_value_len := wsub64 (wsub64 value.length TYPE_LENGTH)
        STRING_VALUE_SUFFIXLENGTH
      let user_value_end := (TYPE_LENGTH + user_value_len) % 2 ^ 64
      let reserve_end := (user_value_end + SUFFIX_RESERVE_LENGTH) % 2 ^ 64
      if value.length - reserve_end < 2 * TIMESTAMP_LENGTH then
        ParseResult.invalidFormat "invalid string value suffix length"
      else
        let ctime := readLe value reserve_end TIMESTAMP_LENGTH
        let etime := readLe value (reserve_end + TIMESTAMP_LENGTH) TIMESTAMP_LENGTH
        ParseResult.ok
          { base :=
            { value := value
              data_type := dt
              user_value_range := (TYPE_LENGTH, user_value_end)
              reserve_range := (user_value_end, reserve_end)
              version := 0
              ctime := ctime
              etime := etime } }

/-- Modelled from the spec: the decision delegated to by the compaction
filter for a parsed record — Keep iff the record is not stale at the
sampled time (spec section 4.6); base_value_format.rs is not part of the
provided sources. -/
inductive CompactionDecision where
  | keep
  | remove
deriving DecidableEq

def ParsedStringsValue.filter_decision (p : ParsedStringsValue) (now : Nat) :
    CompactionDecision :=
  if p.base.is_stale now then CompactionDecision.remove else CompactionDecision.keep

/-! ## Parsed bare data record (base_data_value_format.rs) -/

structure ParsedBaseDataValue where
  base : ParsedInternalValue
deriving DecidableEq

/-- ParsedBaseDataValue::new — rejects buffers shorter than the 24-byte
suffix, then interprets the first byte as a type tag even though the bare
data encoder writes no type byte. -/
def ParsedBaseDataValue.new (value : List Nat) : ParseResult ParsedBaseDataValue :=
  if value.length < SUFFIX_RESERVE_LENGTH + TIMESTAMP_LENGTH then
    ParseResult.invalidFormat "invalid string value length"
  else
    match DataType.tryFrom (value.headD 0) with
    | Option.none => ParseResult.invalidFormat "invalid data type byte"
    | Option.some dt =>
      let user_value_size :=
        value.length - SUFFIX_RESERVE_LENGTH - TIMESTAMP_LENGTH
      let ctime := readLe value (user_value_size + SUFFIX_RESERVE_LENGTH)
        TIMESTAMP_LENGTH
      ParseResult.ok
        { base :=
          { value := value
            data_type := dt
            user_value_range := (0, user_value_size)
            reserve_range :=
              (user_value_size, user_value_size + SUFFIX_RESERVE_LENGTH)
            version := 0
            ctime := ctime
            etime := 0 } }

/-! ## Parsed container metadata record (base_meta_value_format.rs) -/

structure ParsedBaseMetaValue where
  base : ParsedInternalValue
  count : Int
deriving DecidableEq

/-- ParsedBaseMetaValue::new.  The guard only rejects
`len < BASE_META_VALUE_SUFFIX_LENGTH` (40); at length exactly 40 the usize
computation `len - TYPE_LENGTH - BASE_META_VALUE_SUFFIX_LENGTH` underflows
(release-mode wrap modelled with `wsub64`).  All fixed-width slice reads
remain in bounds for every length passing the guard, so the fallible
`try_into` conversions never fail and no abort occurs under release
semantics. -/
def ParsedBaseMetaValue.new (value : List Nat) : ParseResult ParsedBaseMetaValue :=
  if value.length < BASE_META_VALUE_SUFFIX_LENGTH then
    ParseResult.invalidFormat "invalid meta value length"
  else
    match DataType.tryFrom (value.headD 0) with
    | Option.none => ParseResult.invalidFormat "invalid data type byte"
    | Option.some dt =>
      let count := signed32 (readLe value TYPE_LENGTH BASE_META_VALUE_COUNT_LENGTH)
      let user_value_size := wsub64 (wsub64 value.length TYPE_LENGTH)
        BASE_META_VALUE_SUFFIX_LENGTH
      let user_value_end := (TYPE_LENGTH + user_value_size) % 2 ^ 64
      let version_end := (user_value_end + VERSION_LENGTH) % 2 ^ 64
      let version := readLe value user_value_end VERSION_LENGTH
      let reserve_end := (version_end + SUFFIX_RESERVE_LENGTH) % 2 ^ 64
      let ctime := readLe value reserve_end TIMESTAMP_LENGTH
      let etime := readLe value (reserve_end + TIMESTAMP_LENGTH) TIMESTAMP_LENGTH
      ParseResult.ok
        { base :=
          { value := value
            data_type := dt
            user_value_range := (TYPE_LENGTH, user_value_end)
            reserve_range := (version_end, reserve_end)
            version := version
            ctime := ctime
            etime := etime }
          count := count }

/-- ParsedBaseMetaValue::is_valid — not stale and count non-zero. -/
def ParsedBaseMetaValue.is_valid (p : ParsedBaseMetaValue) (now : Nat) : Bool :=
  !(p.base.is_stale now) && decide (p.count ≠ 0)

/-- ParsedBaseMetaValue::set_count — writes only the materialized field;
the source does not call `set_count_to_value`, so the in-buffer count
bytes are left untouched. -/
def ParsedBaseMetaValue.set_count (p : ParsedBaseMetaValue) (count : Int) :
    ParsedBaseMetaValue :=
  { p with count := count }

/-- ParsedBaseMetaValue::set_etime — materialized field plus in-place
splice of the trailing 8 bytes. -/
def ParsedBaseMetaValue.set_etime (p : ParsedBaseMetaValue) (etime : Nat) :
    ParsedBaseMetaValue :=
  { p with base :=
    { p.base with
      etime := etime
      value := writeBytes p.base.value (p.base.value.length - TIMESTAMP_LENGTH)
        (natToLe 8 etime) } }

/-- ParsedBaseMetaValue::set_ctime — materialized field plus in-place
splice at `len - 2 * TIMESTAMP_LENGTH`. -/
def ParsedBaseMetaValue.set_ctime (p : ParsedBaseMetaValue) (ctime : Nat) :
    ParsedBaseMetaValue :=
  { p with base :=
    { p.base with
      ctime := ctime
      value := writeBytes p.base.value
        (p.base.value.length - 2 * TIMESTAMP_LENGTH) (natToLe 8 ctime) } }

/-- ParsedBaseMetaValue::modify_count — saturating i32 add, then in-place
splice of the 4 count bytes after the type byte. -/
def ParsedBaseMetaValue.modify_count (p : ParsedBaseMetaValue) (delta : Int) :
    ParsedBaseMetaValue :=
  let c := satAddI32 p.count delta
  { p with
    count := c
    base := { p.base with
      value := writeBytes p.base.value TYPE_LENGTH (i32ToLe c) } }

/-- ParsedBaseMetaValue::update_version — same version formula as the
encode side, then an in-place splice of the version bytes at
`len - BASE_META_VALUE_SUFFIX_LENGTH`; returns the new version. -/
def ParsedBaseMetaValue.update_version (p : ParsedBaseMetaValue) (now : Nat) :
    ParsedBaseMetaValue × Nat :=
  let nv := if now ≤ p.base.version then (p.base.version + 1) % 2 ^ 64 else now
  ({ p with base :=
    { p.base with
      version := nv
      value := writeBytes p.base.value
        (p.base.value.length - BASE_META_VALUE_SUFFIX_LENGTH) (natToLe 8 nv) } },
   nv)

/-- ParsedBaseMetaValue::initial_meta_value — set_count 0, set_etime 0,
set_ctime 0, then update_version; returns the new version. -/
def ParsedBaseMetaValue.initial_meta_value (p : ParsedBaseMetaValue) (now : Nat) :
    ParsedBaseMetaValue × Nat :=
  (((p.set_count 0).set_etime 0).set_ctime 0).update_version now

/-! ## Parsed list metadata record (lists_meta_value_format.rs)

Several mutators of this struct are explicit stubs in the source: their
bodies are empty, so they change neither the materialized fields nor the
buffer; they are modelled as identity functions below, each marked. -/

structure ParsedListsMetaValue where
  base : ParsedInternalValue
  count : Nat
  left_index : Nat
  right_index : Nat
deriving DecidableEq

/-- ParsedListsMetaValue::new — fixed offsets: count at 1, version at 5,
left index at 13, right index at 21, reserve at 29, ctime at 45, etime at
53.  The guard only rejects `len < LISTS_META_VALUE_SUFFIX_LENGTH` (60);
at length exactly 60 the etime read `value[53..61]` is out of bounds and
the parser aborts.  The source decodes the 4 count bytes with
`u64::from_le_bytes` over a 4-byte array (the width mismatch flagged in
spec section 9); the only executable reading, a zero-extended 4-byte
little-endian decode, is used here. -/
def ParsedListsMetaValue.new (value : List Nat) : ParseResult ParsedListsMetaValue :=
  if value.length < LISTS_META_VALUE_SUFFIX_LENGTH then
    ParseResult.invalidFormat "invalid lists meta value length"
  else
    match DataType.tryFrom (value.headD 0) with
    | Option.none => ParseResult.invalidFormat "invalid data type byte"
    | Option.some dt =>
      if value.length < TYPE_LENGTH + LISTS_META_VALUE_SUFFIX_LENGTH then
        ParseResult.aborted
      else
        let count := readLe value TYPE_LENGTH BASE_META_VALUE_COUNT_LENGTH
        let version := readLe value 5 VERSION_LENGTH
        let left_index := readLe value 13 LIST_VALUE_INDEX_LENGTH
        let right_index := readLe value 21 LIST_VALUE_INDEX_LENGTH
        let ctime := readLe value 45 TIMESTAMP_LENGTH
        let etime := readLe value 53 TIMESTAMP_LENGTH
        ParseResult.ok
          { base :=
            { value := value
              data_type := dt
              user_value_range := (TYPE_LENGTH, TYPE_LENGTH + BASE_META_VALUE_COUNT_LENGTH)
              reserve_range := (29, 29 + SUFFIX_RESERVE_LENGTH)
              version := version
              ctime := ctime
              etime := etime }
            count := count
            left_index := left_index
            right_index := right_index }

/-- ParsedListsMetaValue::is_valid — not stale and count non-zero. -/
def ParsedListsMetaValue.is_valid (p : ParsedListsMetaValue) (now : Nat) : Bool :=
  !(p.base.is_stale now) && decide (p.count ≠ 0)

/-- ParsedListsMetaValue::set_count — empty body in the source: neither
the materialized count nor the buffer is changed. -/
def ParsedListsMetaValue.set_count (p : ParsedListsMetaValue) (_count : Nat) :
    ParsedListsMetaValue :=
  p

/-- ParsedListsMetaValue::set_left_index — empty body in the source. -/
def ParsedListsMetaValue.set_left_index (p : ParsedListsMetaValue) (_index : Nat) :
    ParsedListsMetaValue :=
  p

/-- ParsedListsMetaValue::set_right_index — empty body in the source. -/
def ParsedListsMetaValue.set_right_index (p : ParsedListsMetaValue) (_index : Nat) :
    ParsedListsMetaValue :=
  p

/-- ParsedListsMetaValue::modify_left_index — empty body in the source. -/
def ParsedListsMetaValue.modify_left_index (p : ParsedListsMetaValue) (_index : Nat) :
    ParsedListsMetaValue :=
  p

/-- ParsedListsMetaValue::modify_right_index — empty body in the source. -/
def ParsedListsMetaValue.modify_right_index (p : ParsedListsMetaValue) (_index : Nat) :
    ParsedListsMetaValue :=
  p

/-- ParsedListsMetaValue::set_ctime — materialized field plus in-place
splice at `len - 2 * TIMESTAMP_LENGTH` (implemented in the source). -/
def ParsedListsMetaValue.set_ctime (p : ParsedListsMetaValue) (ctime : Nat) :
    ParsedListsMetaValue :=
  { p with base :=
    { p.base with
      ctime := ctime
      value := writeBytes p.base.value
        (p.base.value.length - 2 * TIMESTAMP_LENGTH) (natToLe 8 ctime) } }

/-- ParsedListsMetaValue::set_etime — materialized field plus in-place
splice of the trailing 8 bytes (implemented in the source). -/
def ParsedListsMetaValue.set_etime (p : ParsedListsMetaValue) (etime : Nat) :
    ParsedListsMetaValue :=
  { p with base :=
    { p.base with
      etime := etime
      value := writeBytes p.base.value (p.base.value.length - TIMESTAMP_LENGTH)
        (natToLe 8 etime) } }

/-- ParsedListsMetaValue::initial_meta_value — calls the stubbed
`set_count`, `set_left_index` and `set_right_index` and returns the
literal 0; the record is left entirely unchanged. -/
def ParsedListsMetaValue.initial_meta_value (p : ParsedListsMetaValue) :
    ParsedListsMetaValue × Nat :=
  (((p.set_count 0).set_left_index INITIAL_LEFT_INDEX).set_right_index
    INITIAL_RIGHT_INDEX, 0)

/-! ## Compaction filter (base_filter.rs)

`now` stands for the wall-clock microsecond timestamp the filter samples
at the start of each invocation.  The `todo!()` placeholders of the List
branch and the catch-all branch abort. -/

inductive FilterOutcome where
  | decision (d : CompactionDecision)
  | aborted
deriving DecidableEq

/-- BaseMetaFilter::filter — empty value: Remove; unrecognized type byte:
Remove; String: parse and delegate to the staleness decision, any parse
error collapsing to Remove; every other recognized type reaches a
`todo!()` placeholder and aborts. -/
def BaseMetaFilter.filter (now : Nat) (value : List Nat) : FilterOutcome :=
  if value = [] then FilterOutcome.decision CompactionDecision.remove
  else
    match DataType.tryFrom (value.headD 0) with
    | Option.none => FilterOutcome.decision CompactionDecision.remove
    | Option.some DataType.string =>
      match ParsedStringsValue.new value with
      | ParseResult.ok pv => FilterOutcome.decision (pv.filter_decision now)
      | ParseResult.invalidFormat _ =>
        FilterOutcome.decision CompactionDecision.remove
      | ParseResult.aborted => FilterOutcome.aborted
    | Option.some _ => FilterOutcome.aborted

/-! ## Byte-level lemmas -/

theorem length_natToLe (w n : Nat) : (natToLe w n).length = w := by
  induction w generalizing n with
  | zero => rfl
  | succ w ih => simp [natToLe, ih]

theorem leToNat_natToLe (w n : Nat) : leToNat (natToLe w n) = n % 256 ^ w := by
  induction w generalizing n with
  | zero => simp [natToLe, leToNat, Nat.mod_one]
  | succ w ih =>
    simp only [natToLe, leToNat, ih]
    rw [pow_succ, Nat.mul_comm (256 ^ w) 256, Nat.mod_mul]

theorem readBytes_exact (x b y : List Nat) (s n : Nat)
    (hs : s = x.length) (hn : n = b.length) :
    readBytes (x ++ b ++ y) s n = b := by
  subst hs hn
  rw [readBytes, List.append_assoc, List.drop_left, List.take_left]

theorem readBytes_exact_end (x b : List Nat) (s n : Nat)
    (hs : s = x.length) (hn : n = b.length) :
    readBytes (x ++ b) s n = b := by
  subst hs hn
  rw [readBytes, List.drop_left, List.take_length]

theorem readLe_exact (x y : List Nat) (s w t : Nat)
    (hs : s = x.length) (ht : t < 256 ^ w) :
    readLe (x ++ natToLe w t ++ y) s w = t := by
  rw [readLe, readBytes_exact x (natToLe w t) y s w hs (length_natToLe w t).symm,
    leToNat_natToLe, Nat.mod_eq_of_lt ht]

theorem readLe_exact_end (x : List Nat) (s w t : Nat)
    (hs : s = x.length) (ht : t < 256 ^ w) :
    readLe (x ++ natToLe w t) s w = t := by
  rw [readLe, readBytes_exact_end x (natToLe w t) s w hs (length_natToLe w t).symm,
    leToNat_natToLe, Nat.mod_eq_of_lt ht]

theorem wsub64_of_le (a b : Nat) (hb : b ≤ a) (ha : a < 2 ^ 64) :
    wsub64 a b = a - b := by
  unfold wsub64
  omega

theorem pow256_8 : (256 : Nat) ^ 8 = 2 ^ 64 := by norm_num

/-! ## Parsing an encoded record recovers its fields -/

theorem stringEncode_length (v : StringValue) :
    (StringValue.encode v).length = 33 + v.inner.user_value.length := by
  simp [StringValue.encode, length_natToLe, SUFFIX_RESERVE_LENGTH]
  omega

theorem parseStrings_encode (v : StringValue)
    (hct : v.inner.ctime < 2 ^ 64) (het : v.inner.etime < 2 ^ 64)
    (hL : v.inner.user_value.length < 2 ^ 32) :
    ParsedStringsValue.new (StringValue.encode v) =
      ParseResult.ok
        { base :=
          { value := StringValue.encode v
            data_type := DataType.string
            user_value_range := (1, 1 + v.inner.user_value.length)
            reserve_range :=
              (1 + v.inner.user_value.length, 17 + v.inner.user_value.length)
            version := 0
            ctime := v.inner.ctime
            etime := v.inner.etime } } := by
  have hlen := stringEncode_length v
  have hhead : (StringValue.encode v).headD 0 = 1 := by
    simp [StringValue.encode, DataType.toByte]
  have hct8 : v.inner.ctime < 256 ^ 8 := by rw [pow256_8]; exact hct
  have het8 : v.inner.etime < 256 ^ 8 := by rw [pow256_8]; exact het
  have hctr : readLe (StringValue.encode v) (17 + v.inner.user_value.length)
      TIMESTAMP_LENGTH = v.inner.ctime := by
    rw [StringValue.encode]
    exact readLe_exact _ _ _ _ _
      (by simp [SUFFIX_RESERVE_LENGTH]; omega) hct8
  have hetr : readLe (StringValue.encode v)
      (17 + v.inner.user_value.length + TIMESTAMP_LENGTH)
      TIMESTAMP_LENGTH = v.inner.etime := by
    rw [StringValue.encode]
    exact readLe_exact_end _ _ _ _
      (by simp [SUFFIX_RESERVE_LENGTH, TIMESTAMP_LENGTH, length_natToLe]; omega)
      het8
  have hS : STRING_VALUE_SUFFIXLENGTH = 32 := rfl
  have hT : TYPE_LENGTH = 1 := rfl
  have hTs : TIMESTAMP_LENGTH = 8 := rfl
  have hR : SUFFIX_RESERVE_LENGTH = 16 := rfl
  have htf : DataType.tryFrom 1 = Option.some DataType.string := by
    unfold DataType.tryFrom
    norm_num
  unfold ParsedStringsValue.new
  rw [hlen, hhead]
  simp only [hS, hT, hTs, hR, htf]
  rw [if_neg (by omega)]
  have h1 : wsub64 (33 + v.inner.user_value.length) 1
      = 32 + v.inner.user_value.length := by
    rw [wsub64_of_le] <;> omega
  have h2 : wsub64 (32 + v.inner.user_value.length) 32
      = v.inner.user_value.length := by
    rw [wsub64_of_le] <;> omega
  have h3 : (1 + v.inner.user_value.length) % 2 ^ 64
      = 1 + v.inner.user_value.length := by
    rw [Nat.mod_eq_of_lt]
    omega
  have h4 : (1 + v.inner.user_value.length + 16) % 2 ^ 64
      = 17 + v.inner.user_value.length := by
    rw [Nat.mod_eq_of_lt] <;> omega
  simp only [h1, h2, h3, h4]
  rw [if_neg (by omega)]
  rw [hTs] at hctr hetr
  rw [hctr, hetr]

theorem readBytes_at_pos (v pre mid post : List Nat) (s n : Nat)
    (hv : v = pre ++ (mid ++ post)) (hs : s = pre.length) (hn : n = mid.length) :
    readBytes v s n = mid := by
  subst hv hs hn
  rw [readBytes, List.drop_left, List.take_left]

theorem readBytes_at_end (v pre mid : List Nat) (s n : Nat)
    (hv : v = pre ++ mid) (hs : s = pre.length) (hn : n = mid.length) :
    readBytes v s n = mid := by
  subst hv hs hn
  rw [readBytes, List.drop_left, List.take_length]

theorem readLe_at_pos (v pre post : List Nat) (s w t : Nat)
    (hv : v = pre ++ (natToLe w t ++ post)) (hs : s = pre.length)
    (ht : t < 256 ^ w) :
    readLe v s w = t := by
  rw [readLe, readBytes_at_pos v pre (natToLe w t) post s w hv hs
    (length_natToLe w t).symm, leToNat_natToLe, Nat.mod_eq_of_lt ht]

theorem readLe_at_end (v pre : List Nat) (s w t : Nat)
    (hv : v = pre ++ natToLe w t) (hs : s = pre.length) (ht : t < 256 ^ w) :
    readLe v s w = t := by
  rw [readLe, readBytes_at_end v pre (natToLe w t) s w hv hs
    (length_natToLe w t).symm, leToNat_natToLe, Nat.mod_eq_of_lt ht]

theorem tryFrom_toByte (dt : DataType) :
    DataType.tryFrom dt.toByte = Option.some dt := by
  cases dt <;> rfl

theorem metaEncode_length (v : BaseMetaValue) :
    (BaseMetaValue.encode v).length
      = 25 + v.inner.user_value.length + v.inner.reserve.length := by
  simp [BaseMetaValue.encode, length_natToLe]
  omega

theorem parseMeta_encode (v : BaseMetaValue)
    (hres : v.inner.reserve.length = 16)
    (hver : v.inner.version < 2 ^ 64) (hct : v.inner.ctime < 2 ^ 64)
    (het : v.inner.etime < 2 ^ 64) (hL : v.inner.user_value.length < 2 ^ 32) :
    ParsedBaseMetaValue.new (BaseMetaValue.encode v) =
      ParseResult.ok
        { base :=
          { value := BaseMetaValue.encode v
            data_type := v.inner.data_type
            user_value_range := (1, 1 + v.inner.user_value.length)
            reserve_range :=
              (9 + v.inner.user_value.length, 25 + v.inner.user_value.length)
            version := v.inner.version
            ctime := v.inner.ctime
            etime := v.inner.etime }
          count := signed32 (readLe (BaseMetaValue.encode v) TYPE_LENGTH
            BASE_META_VALUE_COUNT_LENGTH) } := by
  have hlen : (BaseMetaValue.encode v).length = 41 + v.inner.user_value.length := by
    rw [metaEncode_length, hres]
    omega
  have hhead : (BaseMetaValue.encode v).headD 0 = v.inner.data_type.toByte := by
    simp [BaseMetaValue.encode]
  have hver8 : v.inner.version < 256 ^ 8 := by rw [pow256_8]; exact hver
  have hct8 : v.inner.ctime < 256 ^ 8 := by rw [pow256_8]; exact hct
  have het8 : v.inner.etime < 256 ^ 8 := by rw [pow256_8]; exact het
  have hverr : readLe (BaseMetaValue.encode v) (1 + v.inner.user_value.length)
      8 = v.inner.version := by
    apply readLe_at_pos _ ([v.inner.data_type.toByte] ++ v.inner.user_value)
      (v.inner.reserve ++ (natToLe 8 v.inner.ctime ++ natToLe 8 v.inner.etime))
    · simp [BaseMetaValue.encode, List.append_assoc]
    · simp [length_natToLe, hres] <;> omega
    · exact hver8
  have hctr : readLe (BaseMetaValue.encode v) (25 + v.inner.user_value.length)
      8 = v.inner.ctime := by
    apply readLe_at_pos _ ([v.inner.data_type.toByte] ++ v.inner.user_value
      ++ natToLe 8 v.inner.version ++ v.inner.reserve)
      (natToLe 8 v.inner.etime)
    · simp [BaseMetaValue.encode, List.append_assoc]
    · simp [length_natToLe, hres] <;> omega
    · exact hct8
  have hetr : readLe (BaseMetaValue.encode v) (33 + v.inner.user_value.length)
      8 = v.inner.etime := by
    apply readLe_at_end _ ([v.inner.data_type.toByte] ++ v.inner.user_value
      ++ natToLe 8 v.inner.version ++ v.inner.reserve ++ natToLe 8 v.inner.ctime)
    · simp [BaseMetaValue.encode, List.append_assoc]
    · simp [length_natToLe, hres] <;> omega
    · exact het8
  have hB : BASE_META_VALUE_SUFFIX_LENGTH = 40 := rfl
  have hT : TYPE_LENGTH = 1 := rfl
  have hTs : TIMESTAMP_LENGTH = 8 := rfl
  have hR : SUFFIX_RESERVE_LENGTH = 16 := rfl
  have hV : VERSION_LENGTH = 8 := rfl
  unfold ParsedBaseMetaValue.new
  rw [hlen, hhead, tryFrom_toByte]
  simp only [hB, hT, hTs, hR, hV]
  rw [if_neg (by omega)]
  have h1 : wsub64 (41 + v.inner.user_value.length) 1
      = 40 + v.inner.user_value.length := by
    rw [wsub64_of_le] <;> omega
  have h2 : wsub64 (40 + v.inner.user_value.length) 40
      = v.inner.user_value.length := by
    rw [wsub64_of_le] <;> omega
  have h3 : (1 + v.inner.user_value.length) % 2 ^ 64
      = 1 + v.inner.user_value.length := by
    rw [Nat.mod_eq_of_lt]
    omega
  have h4 : (1 + v.inner.user_value.length + 8) % 2 ^ 64
      = 9 + v.inner.user_value.length := by
    rw [Nat.mod_eq_of_lt] <;> omega
  have h5 : (9 + v.inner.user_value.length + 16) % 2 ^ 64
      = 25 + v.inner.user_value.length := by
    rw [Nat.mod_eq_of_lt] <;> omega
  simp only [h1, h2, h3, h4, h5]
  rw [hverr, hctr]
  have h6 : 25 + v.inner.user_value.length + 8 = 33 + v.inner.user_value.length := by
    omega
  rw [h6, hetr]

theorem parseLists_encode (v : ListsMetaValue)
    (h4 : v.inner.user_value.length = 4) (hres : v.inner.reserve.length = 16)
    (hver : v.inner.version < 2 ^ 64) (hct : v.inner.ctime < 2 ^ 64)
    (het : v.inner.etime < 2 ^ 64) (hli : v.left_index < 2 ^ 64)
    (hri : v.right_index < 2 ^ 64) :
    ParsedListsMetaValue.new (ListsMetaValue.encode v) =
      ParseResult.ok
        { base :=
          { value := ListsMetaValue.encode v
            data_type := v.inner.data_type
            user_value_range := (1, 5)
            reserve_range := (29, 45)
            version := v.inner.version
            ctime := v.inner.ctime
            etime := v.inner.etime }
          count := leToNat v.inner.user_value
          left_index := v.left_index
          right_index := v.right_index } := by
  have hlen : (ListsMetaValue.encode v).length = 61 := by
    simp [ListsMetaValue.encode, length_natToLe, hres, h4]
  have hhead : (ListsMetaValue.encode v).headD 0 = v.inner.data_type.toByte := by
    simp [ListsMetaValue.encode]
  have hver8 : v.inner.version < 256 ^ 8 := by rw [pow256_8]; exact hver
  have hct8 : v.inner.ctime < 256 ^ 8 := by rw [pow256_8]; exact hct
  have het8 : v.inner.etime < 256 ^ 8 := by rw [pow256_8]; exact het
  have hli8 : v.left_index < 256 ^ 8 := by rw [pow256_8]; exact hli
  have hri8 : v.right_index < 256 ^ 8 := by rw [pow256_8]; exact hri
  have hcnt : readBytes (ListsMetaValue.encode v) 1 4 = v.inner.user_value := by
    apply readBytes_at_pos _ [v.inner.data_type.toByte] v.inner.user_value
      (natToLe 8 v.inner.version ++ (natToLe 8 v.left_index
        ++ (natToLe 8 v.right_index ++ (v.inner.reserve
        ++ (natToLe 8 v.inner.ctime ++ natToLe 8 v.inner.etime)))))
    · simp [ListsMetaValue.encode, List.append_assoc]
    · simp
    · omega
  have hverr : readLe (ListsMetaValue.encode v) 5 8 = v.inner.version := by
    apply readLe_at_pos _ ([v.inner.data_type.toByte] ++ v.inner.user_value)
      (natToLe 8 v.left_index ++ (natToLe 8 v.right_index ++ (v.inner.reserve
        ++ (natToLe 8 v.inner.ctime ++ natToLe 8 v.inner.etime))))
    · simp [ListsMetaValue.encode, List.append_assoc]
    · simp [h4]
    · exact hver8
  have hlir : readLe (ListsMetaValue.encode v) 13 8 = v.left_index := by
    apply readLe_at_pos _ ([v.inner.data_type.toByte] ++ v.inner.user_value
      ++ natToLe 8 v.inner.version)
      (natToLe 8 v.right_index ++ (v.inner.reserve
        ++ (natToLe 8 v.inner.ctime ++ natToLe 8 v.inner.etime)))
    · simp [ListsMetaValue.encode, List.append_assoc]
    · simp [h4, length_natToLe]
    · exact hli8
  have hrir : readLe (ListsMetaValue.encode v) 21 8 = v.right_index := by
    apply readLe_at_pos _ ([v.inner.data_type.toByte] ++ v.inner.user_value
      ++ natToLe 8 v.inner.version ++ natToLe 8 v.left_index)
      (v.inner.reserve ++ (natToLe 8 v.inner.ctime ++ natToLe 8 v.inner.etime))
    · simp [ListsMetaValue.encode, List.append_assoc]
    · simp [h4, length_natToLe]
    · exact hri8
  have hctr : readLe (ListsMetaValue.encode v) 45 8 = v.inner.ctime := by
    apply readLe_at_pos _ ([v.inner.data_type.toByte] ++ v.inner.user_value
      ++ natToLe 8 v.inner.version ++ natToLe 8 v.left_index
      ++ natToLe 8 v.right_index ++ v.inner.reserve)
      (natToLe 8 v.inner.etime)
    · simp [ListsMetaValue.encode, List.append_assoc]
    · simp [h4, hres, length_natToLe]
    · exact hct8
  have hetr : readLe (ListsMetaValue.encode v) 53 8 = v.inner.etime := by
    apply readLe_at_end _ ([v.inner.data_type.toByte] ++ v.inner.user_value
      ++ natToLe 8 v.inner.version ++ natToLe 8 v.left_index
      ++ natToLe 8 v.right_index ++ v.inner.reserve ++ natToLe 8 v.inner.ctime)
    · simp [ListsMetaValue.encode, List.append_assoc]
    · simp [h4, hres, length_natToLe]
    · exact het8
  have hLs : LISTS_META_VALUE_SUFFIX_LENGTH = 60 := rfl
  have hT : TYPE_LENGTH = 1 := rfl
  have hTs : TIMESTAMP_LENGTH = 8 := rfl
  have hR : SUFFIX_RESERVE_LENGTH = 16 := rfl
  have hV : VERSION_LENGTH = 8 := rfl
  have hC : BASE_META_VALUE_COUNT_LENGTH = 4 := rfl
  have hI : LIST_VALUE_INDEX_LENGTH = 8 := rfl
  unfold ParsedListsMetaValue.new
  rw [hlen, hhead, tryFrom_toByte]
  simp only [hLs, hT, hTs, hR, hV, hC, hI]
  rw [if_neg (by omega), if_neg (by omega)]
  have hcnt2 : readLe (ListsMetaValue.encode v) 1 4
      = leToNat v.inner.user_value := by
    unfold readLe
    rw [hcnt]
  rw [hcnt2, hverr, hlir, hrir, hctr, hetr]

theorem dataEncode_length (v : BaseDataValue) :
    (BaseDataValue.encode v).length
      = 8 + v.inner.user_value.length + v.inner.reserve.length := by
  simp [BaseDataValue.encode, length_natToLe]
  omega

theorem parseData_encode (v : BaseDataValue) (dt : DataType)
    (hres : v.inner.reserve.length = 16) (hct : v.inner.ctime < 2 ^ 64)
    (hhead : DataType.tryFrom ((BaseDataValue.encode v).headD 0)
      = Option.some dt) :
    ParsedBaseDataValue.new (BaseDataValue.encode v) =
      ParseResult.ok
        { base :=
          { value := BaseDataValue.encode v
            data_type := dt
            user_value_range := (0, v.inner.user_value.length)
            reserve_range :=
              (v.inner.user_value.length, v.inner.user_value.length + 16)
            version := 0
            ctime := v.inner.ctime
            etime := 0 } } := by
  have hlen : (BaseDataValue.encode v).length = 24 + v.inner.user_value.length := by
    rw [dataEncode_length, hres]
    omega
  have hct8 : v.inner.ctime < 256 ^ 8 := by rw [pow256_8]; exact hct
  have hctr : readLe (BaseDataValue.encode v)
      (v.inner.user_value.length + 16) 8 = v.inner.ctime := by
    apply readLe_at_end _ (v.inner.user_value ++ v.inner.reserve)
    · simp [BaseDataValue.encode, List.append_assoc]
    · simp [hres]
    · exact hct8
  have hT : TIMESTAMP_LENGTH = 8 := rfl
  have hR : SUFFIX_RESERVE_LENGTH = 16 := rfl
  unfold ParsedBaseDataValue.new
  rw [hlen, hhead]
  simp only [hT, hR]
  rw [if_neg (by omega)]
  have h1 : 24 + v.inner.user_value.length - 16 - 8 = v.inner.user_value.length := by
    omega
  simp only [h1]
  rw [hctr]

/-! ## Claim C1 -/

/-- C1: the claim that parsing the bytes produced by encode recovers every
observable field for every supported record kind and every encode-side
value is false as stated: a list metadata record with an empty payload
(57 encoded bytes) fails the 60-byte parse guard, and a bare data record
whose first payload byte is not a valid type tag fails the parser's type
check even though its encoder writes no type byte. -/
theorem C1_round_trip_counterexample :
    ParsedListsMetaValue.new (ListsMetaValue.encode (ListsMetaValue.new []))
      = ParseResult.invalidFormat "invalid lists meta value length"
    ∧ ParsedBaseDataValue.new (BaseDataValue.encode (BaseDataValue.new [200]))
      = ParseResult.invalidFormat "invalid data type byte" := by
  constructor
  · decide
  · decide

/-- C1 (amended): parse-of-encode recovers payload, reserve, version,
ctime and etime unconditionally for scalar string records (whose encoder
fixes version 0 and a zeroed reserve) and for container metadata records;
for bare data records it does so exactly when the first byte of the
encoded buffer decodes as a type tag; for list metadata records it does so
(together with the left and right indices) only when the payload is
exactly 4 bytes long. -/
theorem C1_round_trip_amended :
    (∀ sv : StringValue, sv.inner.reserve = List.replicate 16 0 →
      sv.inner.version = 0 → sv.inner.ctime < 2 ^ 64 →
      sv.inner.etime < 2 ^ 64 → sv.inner.user_value.length < 2 ^ 32 →
      ∃ r, ParsedStringsValue.new (StringValue.encode sv) = ParseResult.ok r
        ∧ r.base.user_value = sv.inner.user_value
        ∧ r.base.reserve = sv.inner.reserve
        ∧ r.base.version = sv.inner.version
        ∧ r.base.ctime = sv.inner.ctime
        ∧ r.base.etime = sv.inner.etime)
    ∧ (∀ mv : BaseMetaValue, mv.inner.reserve.length = 16 →
      mv.inner.version < 2 ^ 64 → mv.inner.ctime < 2 ^ 64 →
      mv.inner.etime < 2 ^ 64 → mv.inner.user_value.length < 2 ^ 32 →
      ∃ r, ParsedBaseMetaValue.new (BaseMetaValue.encode mv) = ParseResult.ok r
        ∧ r.base.user_value = mv.inner.user_value
        ∧ r.base.reserve = mv.inner.reserve
        ∧ r.base.version = mv.inner.version
        ∧ r.base.ctime = mv.inner.ctime
        ∧ r.base.etime = mv.inner.etime)
    ∧ (∀ dv : BaseDataValue, ∀ dt : DataType, dv.inner.reserve.length = 16 →
      dv.inner.ctime < 2 ^ 64 →
      DataType.tryFrom ((BaseDataValue.encode dv).headD 0) = Option.some dt →
      ∃ r, ParsedBaseDataValue.new (BaseDataValue.encode dv) = ParseResult.ok r
        ∧ r.base.user_value = dv.inner.user_value
        ∧ r.base.reserve = dv.inner.reserve
        ∧ r.base.ctime = dv.inner.ctime)
    ∧ (∀ lv : ListsMetaValue, lv.inner.user_value.length = 4 →
      lv.inner.reserve.length = 16 → lv.inner.version < 2 ^ 64 →
      lv.inner.ctime < 2 ^ 64 → lv.inner.etime < 2 ^ 64 →
      lv.left_index < 2 ^ 64 → lv.right_index < 2 ^ 64 →
      ∃ r, ParsedListsMetaValue.new (ListsMetaValue.encode lv) = ParseResult.ok r
        ∧ r.base.user_value = lv.inner.user_value
        ∧ r.base.reserve = lv.inner.reserve
        ∧ r.base.version = lv.inner.version
        ∧ r.base.ctime = lv.inner.ctime
        ∧ r.base.etime = lv.inner.etime
        ∧ r.left_index = lv.left_index
        ∧ r.right_index = lv.right_index) := by
  refine ⟨?_, ?_, ?_, ?_⟩
  · intro sv hres hv0 hct het hL
    refine ⟨_, parseStrings_encode sv hct het hL, ?_, ?_, hv0.symm, rfl, rfl⟩
    · show readBytes (StringValue.encode sv) 1
        (1 + sv.inner.user_value.length - 1) = sv.inner.user_value
      apply readBytes_at_pos _ [DataType.string.toByte] sv.inner.user_value
        (List.replicate SUFFIX_RESERVE_LENGTH 0
          ++ (natToLe 8 sv.inner.ctime ++ natToLe 8 sv.inner.etime))
      · simp [StringValue.encode, List.append_assoc]
      · simp
      · omega
    · show readBytes (StringValue.encode sv) (1 + sv.inner.user_value.length)
        (17 + sv.inner.user_value.length - (1 + sv.inner.user_value.length))
        = sv.inner.reserve
      rw [hres]
      apply readBytes_at_pos _ ([DataType.string.toByte] ++ sv.inner.user_value)
        (List.replicate 16 0)
        (natToLe 8 sv.inner.ctime ++ natToLe 8 sv.inner.etime)
      · simp [StringValue.encode, List.append_assoc, SUFFIX_RESERVE_LENGTH]
      · simp [SUFFIX_RESERVE_LENGTH]
        omega
      · simp
        omega
  · intro mv hres hver hct het hL
    refine ⟨_, parseMeta_encode mv hres hver hct het hL, ?_, ?_, rfl, rfl, rfl⟩
    · show readBytes (BaseMetaValue.encode mv) 1
        (1 + mv.inner.user_value.length - 1) = mv.inner.user_value
      apply readBytes_at_pos _ [mv.inner.data_type.toByte] mv.inner.user_value
        (natToLe 8 mv.inner.version ++ (mv.inner.reserve
          ++ (natToLe 8 mv.inner.ctime ++ natToLe 8 mv.inner.etime)))
      · simp [BaseMetaValue.encode, List.append_assoc]
      · simp
      · omega
    · show readBytes (BaseMetaValue.encode mv) (9 + mv.inner.user_value.length)
        (25 + mv.inner.user_value.length - (9 + mv.inner.user_value.length))
        = mv.inner.reserve
      apply readBytes_at_pos _ ([mv.inner.data_type.toByte]
        ++ mv.inner.user_value ++ natToLe 8 mv.inner.version) mv.inner.reserve
        (natToLe 8 mv.inner.ctime ++ natToLe 8 mv.inner.etime)
      · simp [BaseMetaValue.encode, List.append_assoc]
      · simp [length_natToLe]
        omega
      · rw [hres]
        omega
  · intro dv dt hres hct hhead
    refine ⟨_, parseData_encode dv dt hres hct hhead, ?_, ?_, rfl⟩
    · show readBytes (BaseDataValue.encode dv) 0
        (dv.inner.user_value.length - 0) = dv.inner.user_value
      apply readBytes_at_pos _ [] dv.inner.user_value
        (dv.inner.reserve ++ natToLe 8 dv.inner.ctime)
      · simp [BaseDataValue.encode, List.append_assoc]
      · simp
      · omega
    · show readBytes (BaseDataValue.encode dv) dv.inner.user_value.length
        (dv.inner.user_value.length + 16 - dv.inner.user_value.length)
        = dv.inner.reserve
      apply readBytes_at_pos _ dv.inner.user_value dv.inner.reserve
        (natToLe 8 dv.inner.ctime)
      · simp [BaseDataValue.encode, List.append_assoc]
      · rfl
      · rw [hres]
        omega
  · intro lv h4 hres hver hct het hli hri
    refine ⟨_, parseLists_encode lv h4 hres hver hct het hli hri,
      ?_, ?_, rfl, rfl, rfl, rfl, rfl⟩
    · show readBytes (ListsMetaValue.encode lv) 1 (5 - 1) = lv.inner.user_value
      apply readBytes_at_pos _ [lv.inner.data_type.toByte] lv.inner.user_value
        (natToLe 8 lv.inner.version ++ (natToLe 8 lv.left_index
          ++ (natToLe 8 lv.right_index ++ (lv.inner.reserve
          ++ (natToLe 8 lv.inner.ctime ++ natToLe 8 lv.inner.etime)))))
      · simp [ListsMetaValue.encode, List.append_assoc]
      · simp
      · omega
    · show readBytes (ListsMetaValue.encode lv) 29 (45 - 29) = lv.inner.reserve
      apply readBytes_at_pos _ ([lv.inner.data_type.toByte]
        ++ lv.inner.user_value ++ natToLe 8 lv.inner.version
        ++ natToLe 8 lv.left_index ++ natToLe 8 lv.right_index) lv.inner.reserve
        (natToLe 8 lv.inner.ctime ++ natToLe 8 lv.inner.etime)
      · simp [ListsMetaValue.encode, List.append_assoc]
      · simp [h4, length_natToLe]
      · rw [hres]

/-- C1 (amended) witness: the four conjuncts applied at concrete records
whose hypotheses all hold. -/
theorem C1_round_trip_amended_witness :
    (∃ r, ParsedStringsValue.new (StringValue.encode (StringValue.new [7]))
      = ParseResult.ok r)
    ∧ (∃ r, ParsedBaseMetaValue.new
        (BaseMetaValue.encode (BaseMetaValue.new [3, 0, 0, 0]))
      = ParseResult.ok r)
    ∧ (∃ r, ParsedBaseDataValue.new
        (BaseDataValue.encode (BaseDataValue.new [0, 9]))
      = ParseResult.ok r)
    ∧ (∃ r, ParsedListsMetaValue.new
        (ListsMetaValue.encode (ListsMetaValue.new [2, 0, 0, 0]))
      = ParseResult.ok r) := by
  obtain ⟨h1, h2, h3, h4⟩ := C1_round_trip_amended
  refine ⟨?_, ?_, ?_, ?_⟩
  · obtain ⟨r, hr, -⟩ := h1 (StringValue.new [7]) rfl rfl (by decide)
      (by decide) (by decide)
    exact ⟨r, hr⟩
  · obtain ⟨r, hr, -⟩ := h2 (BaseMetaValue.new [3, 0, 0, 0]) rfl (by decide)
      (by decide) (by decide) (by decide)
    exact ⟨r, hr⟩
  · obtain ⟨r, hr, -⟩ := h3 (BaseDataValue.new [0, 9]) DataType.none rfl
      (by decide) (by decide)
    exact ⟨r, hr⟩
  · obtain ⟨r, hr, -⟩ := h4 (ListsMetaValue.new [2, 0, 0, 0]) rfl rfl
      (by decide) (by decide) (by decide) (by decide) (by decide)
    exact ⟨r, hr⟩

/-! ## Claim C2 -/

theorem parseStrings_not_aborted (v : List Nat) :
    ParsedStringsValue.new v ≠ ParseResult.aborted := by
  unfold ParsedStringsValue.new
  split
  · simp
  · split
    · simp
    · dsimp only
      split
      · simp
      · simp

theorem nonempty_of_string_tag (v : List Nat)
    (h : DataType.tryFrom (v.headD 0) = Option.some DataType.string) :
    v ≠ [] := by
  intro he
  rw [he] at h
  exact absurd h (by decide)

/-- C2: the claim that the filter returns a Keep or Remove decision for
every key/value pair and in particular decides values whose valid type
byte is List, Hash, Set, ZSet or None is false: a well-formed list
metadata value reaches the todo placeholder of the List branch and the
filter aborts instead of deciding. -/
theorem C2_filter_dispatch_counterexample :
    BaseMetaFilter.filter 0 (DataType.list.toByte :: List.replicate 60 0)
      = FilterOutcome.aborted := by
  decide

/-- C2 (amended): an empty value, an unrecognized first byte, and a String
parse failure each collapse to Remove; a value whose valid type byte is
String is always decided (the String branch never aborts); a value whose
valid type byte is List, Hash, Set, ZSet or None reaches an unimplemented
todo placeholder and the filter aborts instead of deciding. -/
theorem C2_filter_dispatch_amended :
    (∀ now : Nat, BaseMetaFilter.filter now []
      = FilterOutcome.decision CompactionDecision.remove)
    ∧ (∀ (now : Nat) (v : List Nat), v ≠ [] →
      DataType.tryFrom (v.headD 0) = Option.none →
      BaseMetaFilter.filter now v
        = FilterOutcome.decision CompactionDecision.remove)
    ∧ (∀ (now : Nat) (v : List Nat),
      DataType.tryFrom (v.headD 0) = Option.some DataType.string →
      v.length < STRING_VALUE_SUFFIXLENGTH →
      BaseMetaFilter.filter now v
        = FilterOutcome.decision CompactionDecision.remove)
    ∧ (∀ (now : Nat) (v : List Nat),
      DataType.tryFrom (v.headD 0) = Option.some DataType.string →
      ∃ d, BaseMetaFilter.filter now v = FilterOutcome.decision d)
    ∧ (∀ (now : Nat) (v : List Nat) (dt : DataType), v ≠ [] →
      DataType.tryFrom (v.headD 0) = Option.some dt → dt ≠ DataType.string →
      BaseMetaFilter.filter now v = FilterOutcome.aborted) := by
  refine ⟨?_, ?_, ?_, ?_, ?_⟩
  · intro now
    rfl
  · intro now v hne htf
    unfold BaseMetaFilter.filter
    rw [if_neg hne, htf]
  · intro now v htf hshort
    unfold BaseMetaFilter.filter
    rw [if_neg (nonempty_of_string_tag v htf), htf]
    have hp : ParsedStringsValue.new v
        = ParseResult.invalidFormat "invalid string value length" := by
      unfold ParsedStringsValue.new
      rw [if_pos hshort]
    rw [hp]
  · intro now v htf
    unfold BaseMetaFilter.filter
    rw [if_neg (nonempty_of_string_tag v htf), htf]
    cases hp : ParsedStringsValue.new v with
    | ok pv => exact ⟨pv.filter_decision now, rfl⟩
    | invalidFormat m => exact ⟨CompactionDecision.remove, rfl⟩
    | aborted => exact absurd hp (parseStrings_not_aborted v)
  · intro now v dt hne htf hnstr
    cases dt with
    | string => exact absurd rfl hnstr
    | none =>
      unfold BaseMetaFilter.filter
      rw [if_neg hne, htf]
    | hash =>
      unfold BaseMetaFilter.filter
      rw [if_neg hne, htf]
    | set =>
      unfold BaseMetaFilter.filter
      rw [if_neg hne, htf]
    | zset =>
      unfold BaseMetaFilter.filter
      rw [if_neg hne, htf]
    | list =>
      unfold BaseMetaFilter.filter
      rw [if_neg hne, htf]

/-- C2 (amended) witness: the conjuncts applied at concrete inputs. -/
theorem C2_filter_dispatch_amended_witness :
    BaseMetaFilter.filter 5 [255]
      = FilterOutcome.decision CompactionDecision.remove
    ∧ (∃ d, BaseMetaFilter.filter 5
        (DataType.string.toByte :: List.replicate 40 0)
      = FilterOutcome.decision d)
    ∧ BaseMetaFilter.filter 5 (DataType.hash.toByte :: List.replicate 60 0)
      = FilterOutcome.aborted := by
  refine ⟨?_, ?_, ?_⟩
  · exact C2_filter_dispatch_amended.2.1 5 [255] (by decide) (by decide)
  · exact C2_filter_dispatch_amended.2.2.2.1 5 _ (by decide)
  · exact C2_filter_dispatch_amended.2.2.2.2 5 _ DataType.hash (by decide)
      (by decide) (by decide)

/-! ## Claim C3 -/

/-- C3: the monotone version formula — new version is the sampled time
when that is greater than the stored version, and stored version plus one
otherwise, hence strictly greater — holds for the two implemented
functions, BaseMetaValue::update_version and
ParsedBaseMetaValue::update_version, whenever the stored u64 version is
below its maximum (at u64::MAX the increment would wrap).  The third
function named by the claim, ParsedListsMetaValue::update_version, is an
empty stub in the source (it is declared to return u64 but its body is
empty), so the claim fails there; see the recorded divergence. -/
theorem C3_update_version_monotonic :
    (∀ (v : BaseMetaValue) (now : Nat), v.inner.version < 2 ^ 64 - 1 →
      ((v.update_version now).2
          = if now ≤ v.inner.version then v.inner.version + 1 else now)
        ∧ v.inner.version < (v.update_version now).2
        ∧ (v.update_version now).1.inner.version = (v.update_version now).2)
    ∧ (∀ (p : ParsedBaseMetaValue) (now : Nat), p.base.version < 2 ^ 64 - 1 →
      ((p.update_version now).2
          = if now ≤ p.base.version then p.base.version + 1 else now)
        ∧ p.base.version < (p.update_version now).2
        ∧ (p.update_version now).1.base.version = (p.update_version now).2) := by
  constructor
  · intro v now h
    unfold BaseMetaValue.update_version
    by_cases hc : now ≤ v.inner.version
    · simp only [if_pos hc]
      have hm : (v.inner.version + 1) % 2 ^ 64 = v.inner.version + 1 := by
        rw [Nat.mod_eq_of_lt]
        omega
      rw [hm]
      exact ⟨by trivial, by omega, by trivial⟩
    · simp only [if_neg hc]
      exact ⟨by trivial, by omega, by trivial⟩
  · intro p now h
    unfold ParsedBaseMetaValue.update_version
    by_cases hc : now ≤ p.base.version
    · simp only [if_pos hc]
      have hm : (p.base.version + 1) % 2 ^ 64 = p.base.version + 1 := by
        rw [Nat.mod_eq_of_lt]
        omega
      rw [hm]
      exact ⟨by trivial, by omega, by trivial⟩
    · simp only [if_neg hc]
      exact ⟨by trivial, by omega, by trivial⟩

def C3_meta_record : ParsedBaseMetaValue :=
  { base :=
    { value := List.replicate 45 0
      data_type := DataType.hash
      user_value_range := (1, 5)
      reserve_range := (13, 29)
      version := 3
      ctime := 0
      etime := 0 }
    count := 1 }

/-- C3 witness: both conjuncts applied at concrete records. -/
theorem C3_update_version_monotonic_witness :
    (BaseMetaValue.new []).inner.version
      < ((BaseMetaValue.new []).update_version 10).2
    ∧ C3_meta_record.base.version < (C3_meta_record.update_version 1).2 :=
  ⟨(C3_update_version_monotonic.1 (BaseMetaValue.new []) 10 (by decide)).2.1,
   (C3_update_version_monotonic.2 C3_meta_record 1 (by decide)).2.1⟩

/-! ## Claim C4 -/

/-- C4: a String record with a future etime (relative to the filter's
sampled clock) is decided Keep and is decided Remove once the clock
reaches or passes a non-zero etime — Keep exactly when not stale, stale
being etime nonzero and at most now; an empty value is always decided
Remove; a nonempty value whose first byte is not a valid type tag is
always decided Remove. -/
theorem C4_string_filter_staleness :
    (∀ (sv : StringValue) (now : Nat), sv.inner.ctime < 2 ^ 64 →
      sv.inner.etime < 2 ^ 64 → sv.inner.user_value.length < 2 ^ 32 →
      BaseMetaFilter.filter now (StringValue.encode sv)
        = FilterOutcome.decision
          (if sv.inner.etime ≠ 0 ∧ sv.inner.etime ≤ now
            then CompactionDecision.remove else CompactionDecision.keep))
    ∧ (∀ now : Nat, BaseMetaFilter.filter now []
        = FilterOutcome.decision CompactionDecision.remove)
    ∧ (∀ (now : Nat) (v : List Nat), v ≠ [] →
        DataType.tryFrom (v.headD 0) = Option.none →
        BaseMetaFilter.filter now v
          = FilterOutcome.decision CompactionDecision.remove) := by
  refine ⟨?_, ?_, ?_⟩
  · intro sv now hct het hL
    have hne : StringValue.encode sv ≠ [] := by
      have hl := stringEncode_length sv
      intro he
      rw [he] at hl
      simp at hl
      omega
    have hhead : (StringValue.encode sv).headD 0 = 1 := by
      simp [StringValue.encode, DataType.toByte]
    unfold BaseMetaFilter.filter
    rw [if_neg hne, hhead]
    have htf : DataType.tryFrom 1 = Option.some DataType.string := by decide
    rw [htf, parseStrings_encode sv hct het hL]
    dsimp only
    unfold ParsedStringsValue.filter_decision ParsedInternalValue.is_stale
    dsimp only
    by_cases hc : sv.inner.etime ≠ 0 ∧ sv.inner.etime ≤ now
    · rw [if_pos hc, if_pos (by simp [hc.1, hc.2])]
    · rw [if_neg hc, if_neg (by simpa [Bool.and_eq_true, decide_eq_true_eq]
        using hc)]
  · intro now
    rfl
  · intro now v hne htf
    unfold BaseMetaFilter.filter
    rw [if_neg hne, htf]

def C4_string_record : StringValue :=
  { inner :=
    { data_type := DataType.string
      user_value := [1, 2]
      reserve := List.replicate 16 0
      version := 0
      ctime := 7
      etime := 100 } }

/-- C4 witness: a record with etime 100 is kept at time 50 and removed at
time 200; the degenerate inputs decide Remove. -/
theorem C4_string_filter_staleness_witness :
    BaseMetaFilter.filter 50 (StringValue.encode C4_string_record)
      = FilterOutcome.decision CompactionDecision.keep
    ∧ BaseMetaFilter.filter 200 (StringValue.encode C4_string_record)
      = FilterOutcome.decision CompactionDecision.remove
    ∧ BaseMetaFilter.filter 50 []
      = FilterOutcome.decision CompactionDecision.remove
    ∧ BaseMetaFilter.filter 50 [99]
      = FilterOutcome.decision CompactionDecision.remove := by
  refine ⟨?_, ?_, ?_, ?_⟩
  · have h := C4_string_filter_staleness.1 C4_string_record 50 (by decide)
      (by decide) (by decide)
    rw [h]
    decide
  · have h := C4_string_filter_staleness.1 C4_string_record 200 (by decide)
      (by decide) (by decide)
    rw [h]
    decide
  · exact C4_string_filter_staleness.2.1 50
  · exact C4_string_filter_staleness.2.2 50 [99] (by decide) (by decide)

/-! ## Claim C5 -/

/-- View used to state C5: the payload range of a successful strings
parse, if any. -/
def stringsParseRange (x : ParseResult ParsedStringsValue) :
    Option (Nat × Nat) :=
  match x with
  | ParseResult.ok r => Option.some r.base.user_value_range
  | _ => Option.none

/-- C5: the strings parser at the boundary lengths (valid first byte in
each case).  A 31-byte buffer is rejected with the invalid-format error.
A 32-byte buffer — one byte shorter than the 33-byte fixed-suffix minimum
— passes the guard, which only rejects lengths below
STRING_VALUE_SUFFIXLENGTH = 32, and the payload-size computation
`len - TYPE_LENGTH - STRING_VALUE_SUFFIXLENGTH` underflows: a debug build
aborts, and a release build (modelled here) wraps and returns Ok with the
inverted payload range 1..0 — not the invalid-format error the claim
requires.  A 33-byte buffer (exactly the minimum, empty payload) parses
successfully with the empty range 1..1. -/
theorem C5_min_length_guard_eval :
    ParsedStringsValue.new (DataType.string.toByte :: List.replicate 30 0)
      = ParseResult.invalidFormat "invalid string value length"
    ∧ stringsParseRange (ParsedStringsValue.new
        (DataType.string.toByte :: List.replicate 31 0)) = Option.some (1, 0)
    ∧ stringsParseRange (ParsedStringsValue.new
        (DataType.string.toByte :: List.replicate 32 0)) = Option.some (1, 1) := by
  refine ⟨by decide, by decide, by decide⟩

/-! ## Claim C6 -/

def C6_meta_buffer : List Nat :=
  BaseMetaValue.encode
    { inner :=
      { data_type := DataType.hash
        user_value := [5, 0, 0, 0]
        reserve := List.replicate 16 0
        version := 1
        ctime := 0
        etime := 0 } }

/-- View used to state C6: after set_count 7 on a parsed container
metadata record, the materialized count next to the count decoded from
the 4-byte slice of the owned buffer. -/
def C6_counts (x : ParseResult ParsedBaseMetaValue) : Option (Int × Int) :=
  match x with
  | ParseResult.ok r =>
    Option.some ((r.set_count 7).count,
      signed32 (readLe (r.set_count 7).base.value TYPE_LENGTH
        BASE_META_VALUE_COUNT_LENGTH))
  | _ => Option.none

/-- C6: the materialized-field/buffer invariant fails for
ParsedBaseMetaValue::set_count, which writes only the materialized field
(the source never calls its own set_count_to_value): after parsing a
record whose stored count is 5 and calling set_count(7), the materialized
count is 7 while the count slice of the owned buffer still decodes to 5. -/
theorem C6_set_count_divergence_eval :
    C6_counts (ParsedBaseMetaValue.new C6_meta_buffer)
      = Option.some (7, 5) := by
  decide

/-! ## Claim C7 -/

def C7_meta_buffer : List Nat :=
  BaseMetaValue.encode
    { inner :=
      { data_type := DataType.set
        user_value := [2, 0, 0, 0]
        reserve := List.replicate 16 0
        version := 4
        ctime := 9
        etime := 8 } }

def C7_meta_eval (x : ParseResult ParsedBaseMetaValue) :
    Option (Int × Nat × Nat × Nat) :=
  match x with
  | ParseResult.ok r =>
    Option.some ((r.initial_meta_value 100).1.count,
      (r.initial_meta_value 100).1.base.etime,
      (r.initial_meta_value 100).1.base.ctime,
      (r.initial_meta_value 100).2)
  | _ => Option.none

def C7_lists_buffer : List Nat :=
  DataType.list.toByte :: ([1, 0, 0, 0] ++ natToLe 8 9 ++ natToLe 8 5
    ++ natToLe 8 6 ++ List.replicate 16 0 ++ natToLe 8 0 ++ natToLe 8 0)

def C7_lists_eval (x : ParseResult ParsedListsMetaValue) :
    Option (Bool × Nat × Nat × Nat × Nat) :=
  match x with
  | ParseResult.ok r =>
    Option.some (decide (r.initial_meta_value.1 = r), r.initial_meta_value.2,
      r.count, r.left_index, r.right_index)
  | _ => Option.none

/-- C7: on a parsed container metadata record (stored count 2, version 4,
ctime 9, etime 8) initial_meta_value at sampled time 100 resets the
materialized count, etime and ctime to 0, bumps the version to 100 and
returns it (strictly positive); but on a parsed list metadata record with
count 1, left index 5 and right index 6, initial_meta_value leaves the
record entirely unchanged — the set_count / set_left_index /
set_right_index it calls are empty stubs — and returns the literal 0, so
count is not reset and the indices are not set to INITIAL_LEFT_INDEX and
INITIAL_RIGHT_INDEX. -/
theorem C7_initial_meta_value_eval :
    C7_meta_eval (ParsedBaseMetaValue.new C7_meta_buffer)
      = Option.some (0, 0, 0, 100)
    ∧ C7_lists_eval (ParsedListsMetaValue.new C7_lists_buffer)
      = Option.some (true, 0, 1, 5, 6) := by
  exact ⟨by decide, by decide⟩

/-! ## Claim C8 -/

/-- C8: the claim is false as stated: starting from the initial state,
pushing one element left and then one element right leaves left_index one
below its initial value instead of returning it to the initial value. -/
theorem C8_list_index_counterexample :
    (((ListsMetaValue.new []).modify_left_index 1).modify_right_index
      1).left_index ≠ INITIAL_LEFT_INDEX := by
  decide

/-- C8 (amended): on the encode-side ListsMetaValue, pushing n elements
left and then n elements right leaves left_index exactly n below
INITIAL_LEFT_INDEX and right_index exactly n above INITIAL_RIGHT_INDEX —
the indices move apart and return to their initial values only for n = 0;
consecutive left pushes of 1 then 2 move left_index down by exactly 3,
and symmetrically for right pushes; the parse-side modify operations are
unimplemented stubs that change nothing. -/
theorem C8_list_index_amended :
    (∀ (uv : List Nat) (n : Nat), n < 2 ^ 63 →
      ((((ListsMetaValue.new uv).modify_left_index n).modify_right_index
          n).left_index = INITIAL_LEFT_INDEX - n
        ∧ (((ListsMetaValue.new uv).modify_left_index n).modify_right_index
          n).right_index = INITIAL_RIGHT_INDEX + n))
    ∧ (∀ uv : List Nat,
      (((ListsMetaValue.new uv).modify_left_index 1).modify_left_index
          2).left_index = INITIAL_LEFT_INDEX - 3
        ∧ (((ListsMetaValue.new uv).modify_right_index 1).modify_right_index
          2).right_index = INITIAL_RIGHT_INDEX + 3)
    ∧ (∀ (p : ParsedListsMetaValue) (n m : Nat),
      (p.modify_left_index n).left_index = p.left_index
        ∧ (p.modify_right_index m).right_index = p.right_index) := by
  refine ⟨?_, ?_, ?_⟩
  · intro uv n hn
    constructor
    · show wsub64 INITIAL_LEFT_INDEX n = INITIAL_LEFT_INDEX - n
      unfold wsub64 INITIAL_LEFT_INDEX
      omega
    · show (INITIAL_RIGHT_INDEX + n) % 2 ^ 64 = INITIAL_RIGHT_INDEX + n
      unfold INITIAL_RIGHT_INDEX
      omega
  · intro uv
    constructor
    · show wsub64 (wsub64 INITIAL_LEFT_INDEX 1) 2 = INITIAL_LEFT_INDEX - 3
      unfold wsub64 INITIAL_LEFT_INDEX
      omega
    · show ((INITIAL_RIGHT_INDEX + 1) % 2 ^ 64 + 2) % 2 ^ 64
        = INITIAL_RIGHT_INDEX + 3
      unfold INITIAL_RIGHT_INDEX
      omega
  · intro p n m
    exact ⟨rfl, rfl⟩

/-- C8 (amended) witness: the first conjunct applied at n = 2. -/
theorem C8_list_index_amended_witness :
    (((ListsMetaValue.new []).modify_left_index 2).modify_right_index
        2).left_index = INITIAL_LEFT_INDEX - 2
      ∧ (((ListsMetaValue.new []).modify_left_index 2).modify_right_index
        2).right_index = INITIAL_RIGHT_INDEX + 2 :=
  C8_list_index_amended.1 [] 2 (by decide)

/-! ## Claim C9 -/

/-- C9: for every buffer of valid length (at least the 24-byte suffix)
whose first byte is not a valid DataType encoding,
ParsedBaseDataValue::new returns the invalid-format error — even though
BaseDataValue::encode writes no type byte, so a payload beginning with
such a byte (here 255) encodes successfully but cannot be parsed back. -/
theorem C9_bare_data_type_byte :
    (∀ v : List Nat, 24 ≤ v.length →
      DataType.tryFrom (v.headD 0) = Option.none →
      ParsedBaseDataValue.new v
        = ParseResult.invalidFormat "invalid data type byte")
    ∧ ParsedBaseDataValue.new
        (BaseDataValue.encode (BaseDataValue.new [255]))
      = ParseResult.invalidFormat "invalid data type byte" := by
  constructor
  · intro v hlen htf
    unfold ParsedBaseDataValue.new
    have hng : ¬(v.length < SUFFIX_RESERVE_LENGTH + TIMESTAMP_LENGTH) := by
      simp only [SUFFIX_RESERVE_LENGTH, TIMESTAMP_LENGTH]
      omega
    rw [if_neg hng, htf]
  · decide

/-- C9 witness: the universal conjunct applied at a concrete 24-byte
buffer with an out-of-range first byte. -/
theorem C9_bare_data_type_byte_witness :
    ParsedBaseDataValue.new (255 :: List.replicate 23 0)
      = ParseResult.invalidFormat "invalid data type byte" :=
  C9_bare_data_type_byte.1 (255 :: List.replicate 23 0) (by decide) (by decide)

/-! ## Claim C10 -/

theorem pow256_4 : (256 : Nat) ^ 4 = 2 ^ 32 := by norm_num

def C10_record (c : Nat) (tail res : List Nat) (dt : DataType)
    (ver ct et : Nat) : BaseMetaValue :=
  { inner :=
    { data_type := dt
      user_value := natToLe 4 c ++ tail
      reserve := res
      version := ver
      ctime := ct
      etime := et } }

/-- C10: a container metadata record whose stored 4-byte count is at
least 2^31 parses with a negative materialized count — the parser decodes
the slice as unsigned 32-bit and reinterprets it as signed — and such a
record satisfies is_valid whenever it is not stale, since validity only
requires the count to be non-zero. -/
theorem C10_negative_count_valid :
    ∀ (c : Nat) (tail res : List Nat) (dt : DataType) (ver ct et : Nat),
    2 ^ 31 ≤ c → c < 2 ^ 32 → res.length = 16 → ver < 2 ^ 64 →
    ct < 2 ^ 64 → et < 2 ^ 64 → 4 + tail.length < 2 ^ 32 →
    ∃ r, ParsedBaseMetaValue.new
        (BaseMetaValue.encode (C10_record c tail res dt ver ct et))
      = ParseResult.ok r
      ∧ r.count < 0
      ∧ ∀ now : Nat, r.base.is_stale now = false → r.is_valid now = true := by
  intro c tail res dt ver ct et hc1 hc2 hres hver hct het htail
  have hL : (C10_record c tail res dt ver ct et).inner.user_value.length
      < 2 ^ 32 := by
    show (natToLe 4 c ++ tail).length < 2 ^ 32
    simp [length_natToLe]
    omega
  have hcr4 : readLe (BaseMetaValue.encode (C10_record c tail res dt ver ct et))
      1 4 = c := by
    apply readLe_at_pos _ [dt.toByte]
      (tail ++ (natToLe 8 ver ++ (res ++ (natToLe 8 ct ++ natToLe 8 et))))
    · simp [BaseMetaValue.encode, C10_record, List.append_assoc]
    · rfl
    · rw [pow256_4]
      exact hc2
  have hcr : readLe (BaseMetaValue.encode (C10_record c tail res dt ver ct et))
      TYPE_LENGTH BASE_META_VALUE_COUNT_LENGTH = c := hcr4
  refine ⟨_, parseMeta_encode _ hres hver hct het hL, ?_, ?_⟩
  · dsimp only
    rw [hcr]
    unfold signed32
    rw [if_neg (by omega)]
    omega
  · intro now hstale
    unfold ParsedBaseMetaValue.is_valid
    rw [hstale]
    simp only [Bool.not_false, Bool.true_and, decide_eq_true_eq]
    rw [hcr]
    unfold signed32
    rw [if_neg (by omega)]
    omega

/-- C10 witness: applied at the smallest negative stored count 2^31. -/
theorem C10_negative_count_valid_witness :
    ∃ r, ParsedBaseMetaValue.new (BaseMetaValue.encode
        (C10_record (2 ^ 31) [] (List.replicate 16 0) DataType.hash 1 0 0))
      = ParseResult.ok r ∧ r.count < 0 := by
  obtain ⟨r, hr, hneg, -⟩ := C10_negative_count_valid (2 ^ 31) []
    (List.replicate 16 0) DataType.hash 1 0 0 (by decide) (by decide)
    (by decide) (by decide) (by decide) (by decide) (by decide)
  exact ⟨r, hr, hneg⟩

end Kiwi
